import Mathlib

/-!
Verification development for the UofWRoverLICameras stream-capture program.

The definitions below are a shallow embedding of the C++ sources:
Options.cpp (command-line parsing), ConsumerThread.cpp (the per-camera
consumer worker loop and JPEG writing), and App.cpp (the orchestrator
run method, its one-second wait loop and its ordered teardown).
External collaborators (Argus driver, NvBuffer, NvJPEGEncoder, the
filesystem) are modelled as oracles: every external call's outcome is a
field of an environment record, and the embedded functions thread the
same control flow over those outcomes that the C++ does.
-/

namespace StreamCapture

/-! ## Options.cpp: command-line parsing

Options are initialized in the constructor (Options.cpp lines 36-50):
profile = false, captureTime = 0, saveEvery = 1, captureMode = 0,
directory = the epoch-time string.  Options::parse (lines 86-167) runs a
getopt loop guarded by the local flag named valid; the long option for
help clears that flag through its flag pointer, and each argument-taking
option stores its atoi value and clears the flag when the value is out
of range.  The loop re-checks the flag before fetching the next token.
The local flag is declared uninitialized in the C++, so its initial
value is a parameter of the model. -/

inductive OptTok where
  | longProfile : OptTok
  | longHelp : OptTok
  | rootDir (d : String) : OptTok
  | modeArg (v : Int) : OptTok
  | saveEveryArg (v : Int) : OptTok
  | captTimeArg (v : Int) : OptTok
  | profFlag : OptTok
  | helpFlag : OptTok
  | otherTok : OptTok
deriving DecidableEq

structure OptState where
  valid : Bool
  profile : Bool
  captureMode : Int
  captureTime : Int
  saveEvery : Int
  directory : String
deriving DecidableEq

/-- First-character test of the directory argument (Options.cpp line 112). -/
def alnumFirst (d : String) : Bool :=
  match d.data with
  | [] => false
  | c :: _ => c.isAlphanum

/-- One iteration of the getopt switch (Options.cpp lines 104-164). -/
def optStep (s : OptState) (t : OptTok) : OptState :=
  match t with
  | OptTok.longProfile => { s with profile := true }
  | OptTok.longHelp => { s with valid := false }
  | OptTok.rootDir d =>
      if d.length = 0 || !alnumFirst d then { s with valid := false }
      else { s with directory := d }
  | OptTok.modeArg v =>
      let s1 := { s with captureMode := v }
      let s2 := if v ≠ 0 ∧ v ≠ 1 then { s1 with valid := false } else s1
      if v = 1 then { s2 with valid := false } else s2
  | OptTok.captTimeArg v =>
      let s1 := { s with captureTime := v }
      if v < 0 then { s1 with valid := false } else s1
  | OptTok.saveEveryArg v =>
      let s1 := { s with saveEvery := v }
      if v < 1 then { s1 with valid := false } else s1
  | OptTok.profFlag => { s with profile := true }
  | OptTok.helpFlag => { s with valid := false }
  | OptTok.otherTok => s

/-- The while loop of Options::parse: the valid flag is consulted before
each further token is taken from getopt (line 103). -/
def parseLoop : OptState → List OptTok → OptState
  | s, [] => s
  | s, t :: ts => if s.valid then parseLoop (optStep s t) ts else s

/-- Field values set by the Options constructor (Options.cpp lines 36-50). -/
def initOptState (initValid : Bool) (timeDir : String) : OptState :=
  { valid := initValid, profile := false, captureMode := 0,
    captureTime := 0, saveEvery := 1, directory := timeDir }

/-- Options::parse: returns the final valid flag and the resulting state. -/
def optionsParse (initValid : Bool) (timeDir : String) (toks : List OptTok) :
    Bool × OptState :=
  let s := parseLoop (initOptState initValid timeDir) toks
  (s.valid, s)

/-! ## ConsumerThread.cpp: filenames and the consumer loop -/

/-- The zero-padded integer of the %06lu conversion in processV4L2Fd
(ConsumerThread.cpp line 229): at least six digits, zero filled. -/
def zeroPad6 (n : Nat) : String :=
  let s := toString n
  String.mk (List.replicate (6 - s.length) '0') ++ s

/-- The destination path computed by processV4L2Fd (line 229). -/
def mkFilename (dir : String) (camId : Nat) (idx : Nat) : String :=
  dir ++ "/cam" ++ toString camId ++ "/image" ++ zeroPad6 idx ++ ".jpg"

/-- processV4L2Fd (ConsumerThread.cpp lines 223-243): builds the path,
encodes into the scratch buffer and writes the file; the returned flag
is true only when both the encode call and the stream write succeed. -/
def processV4L2Fd (dir : String) (camId : Nat) (idx : Nat)
    (encodeOk writeOk : Bool) : String × Bool :=
  (mkFilename dir camId idx, encodeOk && writeOk)

/-- Oracle outcomes for one acquired frame: its raw sequence number and
the results of the external calls made while processing it. -/
structure FrameEvt where
  number : Nat
  nativeBufOk : Bool
  bufOpOk : Bool
  encodeOk : Bool
  writeOk : Bool
deriving DecidableEq

/-- Result of one acquireFrame call: a frame, or the null end-of-stream
sentinel (ConsumerThread.cpp lines 135-138). -/
inductive Acquire where
  | frame (f : FrameEvt) : Acquire
  | eos : Acquire
deriving DecidableEq

/-- One outer-loop iteration's input: whether stopExecute was observed
before the loop-head check, and the acquire result. -/
structure LoopStep where
  stopBefore : Bool
  acquire : Acquire
deriving DecidableEq

/-- Consumer worker state during threadExecute.  allocCount is a ghost
counter of createNvBuffer calls that succeeded; dmabufSet models
whether the dmabuf handle differs from -1; broke models leaving the
while loop through the end-of-stream break. -/
structure CState where
  dmabufSet : Bool
  allocCount : Nat
  index : Nat
  doExecute : Bool
  errorOccurred : Bool
  wroteFirst : Bool
  broke : Bool
  written : List String
deriving DecidableEq

/-- The processV4L2Fd call site (ConsumerThread.cpp lines 166-177):
the index argument is the post-increment expression, so the counter
advances on every call; on success the file contents land on disk and
the first-write notice flag is set, on failure only the executing flag
is cleared. -/
def writeStep (dir : String) (camId : Nat) (s : CState) (f : FrameEvt) : CState :=
  if (processV4L2Fd dir camId s.index f.encodeOk f.writeOk).2 then
    { s with index := s.index + 1,
             written := s.written ++ [(processV4L2Fd dir camId s.index f.encodeOk f.writeOk).1],
             wroteFirst := true }
  else
    { s with index := s.index + 1, doExecute := false }

/-- Processing of one sampled frame (ConsumerThread.cpp lines 140-181):
the interface cast, then either the first-frame createNvBuffer or the
in-place copyToNvBuffer, each failure setting the error flag and ending
the iteration, then the encode-and-write call. -/
def frameStep (dir : String) (camId : Nat) (saveEvery : Nat)
    (s : CState) (f : FrameEvt) : CState :=
  if f.number % saveEvery == 0 then
    if !f.nativeBufOk then { s with errorOccurred := true }
    else if !s.dmabufSet then
      if f.bufOpOk then
        writeStep dir camId
          { s with dmabufSet := true, allocCount := s.allocCount + 1 } f
      else { s with errorOccurred := true }
    else if f.bufOpOk then writeStep dir camId s f
    else { s with errorOccurred := true }
  else s

/-- One iteration of the while loop of threadExecute
(ConsumerThread.cpp lines 132-183), as a fold step that is the identity
once the loop has exited: the loop head re-checks the error and
executing flags, a stop request observed before the head check ends the
loop, and a null acquire result breaks out. -/
def loopStep (dir : String) (camId : Nat) (saveEvery : Nat)
    (s : CState) (ev : LoopStep) : CState :=
  if s.errorOccurred || !s.doExecute || s.broke then s
  else if ev.stopBefore then { s with doExecute := false }
  else
    match ev.acquire with
    | Acquire.eos => { s with broke := true }
    | Acquire.frame f => frameStep dir camId saveEvery s f

/-- The whole while loop, folded over the iteration inputs. -/
def execLoop (dir : String) (camId : Nat) (saveEvery : Nat)
    (s : CState) (evs : List LoopStep) : CState :=
  evs.foldl (loopStep dir camId saveEvery) s

/-- State at the top of threadExecute (lines 113-131): index starts at
1, the error flag reflects the waitUntilConnected outcome. -/
def initCState (connectOk : Bool) : CState :=
  { dmabufSet := false, allocCount := 0, index := 1, doExecute := true,
    errorOccurred := !connectOk, wroteFirst := false, broke := false,
    written := [] }

/-- threadExecute (ConsumerThread.cpp lines 111-203): run the loop, then
unconditionally clear the executing flag (line 186) and return the
negated error flag (line 202). -/
def threadExecute (dir : String) (camId : Nat) (saveEvery : Nat)
    (connectOk : Bool) (evs : List LoopStep) : CState × Bool :=
  let s := execLoop dir camId saveEvery (initCState connectOk) evs
  let s := { s with doExecute := false }
  (s, !s.errorOccurred)

/-- ConsumerThread::isExecuting (lines 218-220). -/
def isExecuting (s : CState) : Bool :=
  s.doExecute

/-- A frame whose every external operation succeeds. -/
def okFrame (n : Nat) : LoopStep :=
  { stopBefore := false,
    acquire := Acquire.frame
      { number := n, nativeBufOk := true, bufOpOk := true,
        encodeOk := true, writeOk := true } }

/-- A healthy stream delivering raw sequence numbers 1..n. -/
def healthyEvents (n : Nat) : List LoopStep :=
  (List.range n).map (fun i => okFrame (i + 1))

/-- The end-of-stream iteration. -/
def eosEvt : LoopStep :=
  { stopBefore := false, acquire := Acquire.eos }

/-! ## App.cpp: the orchestrator -/

/-- Externally visible effects of App::run that the ordering claims are
about, in the order the code can emit them. -/
inductive Action where
  | mkdirRoot : Action
  | createCamDir (i : Nat) : Action
  | waitRunning (i : Nat) : Action
  | submitRepeat (i : Nat) : Action
  | stopExecuteAll : Action
  | stopRepeat (i : Nat) : Action
  | waitIdle (i : Nat) : Action
  | destroyStream (i : Nat) : Action
  | workerShutdown (i : Nat) : Action
deriving DecidableEq

/-- One tick of the orchestrator's wait loop: whether a termination
signal arrived before the loop-head check, and each worker's
isExecuting answer when polled. -/
structure TickObs where
  signal : Bool
  alive : Nat → Bool

/-- Oracle outcomes for every external call App::run makes. -/
structure Env where
  signalOk : Bool
  loggerOk : Bool
  optionsOk : Bool
  parseOk : Bool
  mkdirRootOk : Bool
  providerOk : Bool
  deviceCount : Nat
  sessionUnavailable : Nat → Bool
  sessionInterfaceOk : Nat → Bool
  camPropsOk : Bool
  sensorModeCount : Nat
  sensorModeInterfaceOk : Bool
  captureMode : Nat
  streamSettingsOk : Nat → Bool
  streamOk : Nat → Bool
  workerLoggerOk : Nat → Bool
  workerMkdirOk : Nat → Bool
  workerConsumerOk : Nat → Bool
  workerBufferOk : Nat → Bool
  workerEncoderOk : Nat → Bool
  waitRunningOk : Nat → Bool
  requestOk : Nat → Bool
  sourceSettingsOk : Nat → Bool
  repeatOk : Nat → Bool
  captureTime : Nat
  ticks : List TickObs

/-- App.cpp line 134: the device count is stored into a uint8_t. -/
def numCams (e : Env) : Nat :=
  e.deviceCount % 256

/-- The sensor-mode resolution block (App.cpp lines 160-185), given the
requested mode, the mode count and the two interface-cast outcomes.
Returns the error flag, the final captureMode value, and the index used
to subscript the mode vector, when that subscript happens at all. -/
def resolveSensorMode (captureMode : Nat) (numModes : Nat)
    (propsOk : Bool) (ifaceOk : Bool) : Bool × Nat × Option Nat :=
  if !propsOk then (true, captureMode, none)
  else if numModes = 0 then (true, captureMode, none)
  else if captureMode > numModes then (false, 0, none)
  else if !ifaceOk then (true, captureMode, some captureMode)
  else (false, captureMode, some captureMode)

/-- A per-camera loop with abort on first failure, the pattern of the
session, stream, wait-running, request and repeat loops of App::run:
returns how many indices succeeded, whether an error occurred, and the
concatenated per-index actions. -/
def runPhase (f : Nat → Bool × List Action) : Nat → Nat × Bool × List Action
  | 0 => (0, false, [])
  | n + 1 =>
    let r := runPhase f n
    if r.2.1 then r
    else
      let x := f n
      (if x.1 then r.1 + 1 else r.1, !x.1, r.2.2 ++ x.2)

/-- ConsumerThread::threadInitialize (ConsumerThread.cpp lines 50-109)
as seen by the orchestrator: the cam subdirectory comes into existence
exactly when the logger step and the mkdir call both succeed. -/
def threadInit (e : Env) (i : Nat) : Bool × List Action :=
  if !e.workerLoggerOk i then (false, [])
  else if !e.workerMkdirOk i then (false, [])
  else (e.workerConsumerOk i && e.workerBufferOk i && e.workerEncoderOk i,
        [Action.createCamDir i])

/-- The consumer-thread creation loop (App.cpp lines 220-235): tracks
threads created and threads initialized separately, aborting on the
first initialization failure. -/
def workersLoop (e : Env) : Nat → Nat × Nat × Bool × List Action
  | 0 => (0, 0, false, [])
  | n + 1 =>
    let r := workersLoop e n
    if r.2.2.1 then r
    else
      let x := threadInit e n
      (n + 1, if x.1 then n + 1 else r.2.1, !x.1, r.2.2.2 ++ x.2)

/-- Signal arrival folded into the running flag: App::signalCallback
(App.cpp lines 358-360) writes false unconditionally. -/
def signalCallback (signum : Int) (doRun : Bool) : Bool :=
  false

/-- The running flag after a possible signal arrival before a loop-head
check of the wait loop. -/
def signalUpdate (t : TickObs) (doRun : Bool) : Bool :=
  doRun && !t.signal

/-- isExecuting conjoined over every worker (App.cpp lines 293-296). -/
def tickAlive (n : Nat) (t : TickObs) : Bool :=
  (List.range n).all t.alive

/-- The liveness poll of one tick: the orchestrator clears the running
flag when any worker has stopped. -/
def pollUpdate (n : Nat) (t : TickObs) (doRun : Bool) : Bool :=
  doRun && tickAlive n t

/-- The wait loop of App::run (lines 289-309), both shapes at once: the
elapsed-time bound binds only when captureTime is positive.  Each tick
first folds in a possible signal, re-checks the loop condition, then
sleeps one second and polls every worker. -/
def waitLoop (n : Nat) (ct : Nat) : Nat → Bool → List TickObs → Bool
  | _, d, [] => d
  | el, d, t :: ts =>
    let d1 := signalUpdate t d
    if d1 && (ct == 0 || decide (el < ct)) then
      waitLoop n ct (el + 1) (pollUpdate n t d1) ts
    else d1

/-! The phase chain of App::run.  Each errX definition is the value of
the errorOccurred flag after the corresponding block; action lists are
emitted only when their block actually runs. -/

/-- Error state after signal registration, logger and option parsing
(App.cpp lines 47-73). -/
def errPre (e : Env) : Bool :=
  !e.signalOk || !e.loggerOk || !e.optionsOk || !e.parseOk

/-- Error state after creating the base output directory (lines 103-109). -/
def errRoot (e : Env) : Bool :=
  errPre e || !e.mkdirRootOk

/-- The base directory exists iff its mkdir was reached and succeeded. -/
def rootActs (e : Env) : List Action :=
  if !errPre e && e.mkdirRootOk then [Action.mkdirRoot] else []

/-- Error state after creating the camera provider (lines 114-122). -/
def errProv (e : Env) : Bool :=
  errRoot e || !e.providerOk

/-- Error state after device enumeration: zero devices is fatal
(lines 126-133). -/
def errEnum (e : Env) : Bool :=
  errProv e || (e.deviceCount == 0)

/-- Per-camera capture-session outcome (lines 141-152). -/
def sessionOk (e : Env) (i : Nat) : Bool :=
  !e.sessionUnavailable i && e.sessionInterfaceOk i

/-- The capture-session creation loop (lines 139-153). -/
def sessPhase (e : Env) : Nat × Bool × List Action :=
  if errEnum e then (0, false, [])
  else runPhase (fun i => (sessionOk e i, [])) (numCams e)

/-- Error state after session creation. -/
def errSess (e : Env) : Bool :=
  errEnum e || (sessPhase e).2.1

/-- The sensor-mode resolution outcome for this environment. -/
def modeRes (e : Env) : Bool × Nat × Option Nat :=
  resolveSensorMode e.captureMode e.sensorModeCount e.camPropsOk
    e.sensorModeInterfaceOk

/-- Error state after sensor-mode resolution (lines 160-185). -/
def errMode (e : Env) : Bool :=
  errSess e || (modeRes e).1

/-- The output-stream creation loop (lines 195-214). -/
def streamPhase (e : Env) : Nat × Bool × List Action :=
  if errMode e then (0, false, [])
  else runPhase (fun i => (e.streamSettingsOk i && e.streamOk i, [])) (numCams e)

/-- Streams in existence at teardown time. -/
def numStreams (e : Env) : Nat :=
  (streamPhase e).1

/-- Error state after stream creation. -/
def errStream (e : Env) : Bool :=
  errMode e || (streamPhase e).2.1

/-- The consumer launch loop (lines 220-235). -/
def workerPhase (e : Env) : Nat × Nat × Bool × List Action :=
  if errStream e then (0, 0, false, [])
  else workersLoop e (numCams e)

/-- numThreadsCreated after the launch loop. -/
def numCreated (e : Env) : Nat :=
  (workerPhase e).1

/-- numThreadsInitialized after the launch loop. -/
def numInit (e : Env) : Nat :=
  (workerPhase e).2.1

/-- Error state after the launch loop. -/
def errWorker (e : Env) : Bool :=
  errStream e || (workerPhase e).2.2.1

/-- The wait-for-running loop (lines 238-246). -/
def waitPhase (e : Env) : Nat × Bool × List Action :=
  if errWorker e then (0, false, [])
  else runPhase (fun i => (e.waitRunningOk i, [Action.waitRunning i])) (numCams e)

/-- Error state after the wait-for-running loop. -/
def errWait (e : Env) : Bool :=
  errWorker e || (waitPhase e).2.1

/-- The capture-request creation loop (lines 250-270). -/
def reqPhase (e : Env) : Nat × Bool × List Action :=
  if errWait e then (0, false, [])
  else runPhase (fun i => (e.requestOk i && e.sourceSettingsOk i, [])) (numCams e)

/-- Error state after request creation. -/
def errReq (e : Env) : Bool :=
  errWait e || (reqPhase e).2.1

/-- The repeat-submission loop (lines 274-284): counts
numSuccessfulRequests. -/
def subPhase (e : Env) : Nat × Bool × List Action :=
  if errReq e then (0, false, [])
  else runPhase (fun i => (e.repeatOk i, [Action.submitRepeat i])) (numCams e)

/-- numSuccessfulRequests after submission. -/
def numReq (e : Env) : Nat :=
  (subPhase e).1

/-- Error state after submission; nothing after this point writes the
errorOccurred flag, so this is also the flag's final value. -/
def errSub (e : Env) : Bool :=
  errReq e || (subPhase e).2.1

/-- Final value of the static running flag: the wait block (lines
286-316) runs only when no error occurred. -/
def finalDoRun (e : Env) : Bool :=
  if errSub e then true
  else waitLoop (numCams e) e.captureTime 0 true e.ticks

/-- stopExecute is issued to every worker right after the wait loop
(lines 312-314), still inside the no-error block. -/
def stopActs (e : Env) : List Action :=
  if errSub e then [] else [Action.stopExecuteAll]

/-- Unconditional ordered teardown (lines 318-350): stop repeats on the
sessions that actually started, drain them, destroy the streams that
exist, then shut down the initialized workers. -/
def teardownActs (e : Env) : List Action :=
  (List.range (numReq e)).map Action.stopRepeat ++
  (List.range (numReq e)).map Action.waitIdle ++
  (List.range (numStreams e)).map Action.destroyStream ++
  (List.range (numInit e)).map Action.workerShutdown

/-- The full effect trace of App::run, in program order. -/
def appTrace (e : Env) : List Action :=
  rootActs e ++ (workerPhase e).2.2.2 ++ (waitPhase e).2.2 ++
  (subPhase e).2.2 ++ stopActs e ++ teardownActs e

structure RunResult where
  success : Bool
  doRun : Bool
  actions : List Action

/-- App::run (App.cpp lines 40-355): overall outcome. -/
def appRun (e : Env) : RunResult :=
  { success := !errSub e, doRun := finalDoRun e, actions := appTrace e }

/-! Classifiers for the ordering claims. -/

def isCreateCamDirA : Action → Bool
  | Action.createCamDir _ => true
  | _ => false

def isWaitRunningA : Action → Bool
  | Action.waitRunning _ => true
  | _ => false

def isSubmitRepeatA : Action → Bool
  | Action.submitRepeat _ => true
  | _ => false

def isStopRepeatA : Action → Bool
  | Action.stopRepeat _ => true
  | _ => false

def isWaitIdleA : Action → Bool
  | Action.waitIdle _ => true
  | _ => false

def isDestroyStreamA : Action → Bool
  | Action.destroyStream _ => true
  | _ => false

def isWorkerShutdownA : Action → Bool
  | Action.workerShutdown _ => true
  | _ => false

/-- Every action satisfying p occurs strictly before every action
satisfying q in the list l. -/
def before (p q : Action → Bool) (l : List Action) : Prop :=
  ∀ i j (hi : i < l.length) (hj : j < l.length),
    p (l.get ⟨i, hi⟩) = true → q (l.get ⟨j, hj⟩) = true → i < j

/-- Startup oracle in which every external call succeeds and the
configuration is the one Options::parse can actually produce
(captureMode 0), with a sane device count. -/
def StartupOk (e : Env) : Prop :=
  e.signalOk = true ∧ e.loggerOk = true ∧ e.optionsOk = true ∧
  e.parseOk = true ∧ e.mkdirRootOk = true ∧ e.providerOk = true ∧
  1 ≤ e.deviceCount ∧ e.deviceCount < 256 ∧
  (∀ i, e.sessionUnavailable i = false) ∧
  (∀ i, e.sessionInterfaceOk i = true) ∧
  e.camPropsOk = true ∧ 1 ≤ e.sensorModeCount ∧
  e.sensorModeInterfaceOk = true ∧ e.captureMode = 0 ∧
  (∀ i, e.streamSettingsOk i = true) ∧ (∀ i, e.streamOk i = true) ∧
  (∀ i, e.workerLoggerOk i = true) ∧ (∀ i, e.workerMkdirOk i = true) ∧
  (∀ i, e.workerConsumerOk i = true) ∧ (∀ i, e.workerBufferOk i = true) ∧
  (∀ i, e.workerEncoderOk i = true) ∧ (∀ i, e.waitRunningOk i = true) ∧
  (∀ i, e.requestOk i = true) ∧ (∀ i, e.sourceSettingsOk i = true) ∧
  (∀ i, e.repeatOk i = true)

/-! ## Consumer-loop invariants -/

/-- Inductive invariant of the consumer loop: the ghost allocation
counter matches the handle state, the written files carry the
consecutive zero-based positions 1..k, and while the loop can still
write, the next index is exactly one past the files written so far. -/
def goodState (dir : String) (camId : Nat) (s : CState) : Prop :=
  s.allocCount = (if s.dmabufSet then 1 else 0) ∧
  s.written = (List.range s.written.length).map (fun k => mkFilename dir camId (k + 1)) ∧
  (s.errorOccurred = false → s.doExecute = true → s.broke = false →
    s.index = s.written.length + 1)

lemma goodState_init (dir : String) (camId : Nat) (c : Bool) :
    goodState dir camId (initCState c) := by
  refine ⟨rfl, rfl, ?_⟩
  intro _ _ _
  simp [initCState]

lemma loopStep_frozen (dir : String) (camId se : Nat) (s : CState) (ev : LoopStep)
    (h : s.errorOccurred = true ∨ s.doExecute = false ∨ s.broke = true) :
    loopStep dir camId se s ev = s := by
  have hg : (s.errorOccurred || !s.doExecute || s.broke) = true := by
    rcases h with h | h | h <;> simp [h]
  unfold loopStep
  rw [if_pos hg]

lemma goodState_writeStep (dir : String) (camId : Nat) (s : CState) (f : FrameEvt)
    (h1 : s.allocCount = (if s.dmabufSet then 1 else 0))
    (h2 : s.written = (List.range s.written.length).map (fun k => mkFilename dir camId (k + 1)))
    (hix : s.index = s.written.length + 1) :
    goodState dir camId (writeStep dir camId s f) := by
  unfold writeStep
  split
  · refine ⟨h1, ?_, ?_⟩
    · simp only [processV4L2Fd]
      conv_lhs => rw [h2]
      simp only [List.length_append, List.length_map, List.length_range,
        List.length_cons, List.length_nil]
      rw [List.range_succ, List.map_append]
      simp [hix]
    · intro _ _ _
      simp [hix]
  · exact ⟨h1, h2, by intro _ hcon _; simp at hcon⟩

lemma goodState_frameStep (dir : String) (camId se : Nat) (s : CState) (f : FrameEvt)
    (h : goodState dir camId s)
    (he : s.errorOccurred = false) (hd : s.doExecute = true) (hb : s.broke = false) :
    goodState dir camId (frameStep dir camId se s f) := by
  obtain ⟨h1, h2, h3⟩ := h
  have hix := h3 he hd hb
  unfold frameStep
  split
  next =>
    split
    next => exact ⟨h1, h2, by intro hcon _ _; simp at hcon⟩
    next =>
      split
      next hdb =>
        split
        next =>
          refine goodState_writeStep dir camId _ f ?_ h2 hix
          have hdb2 : s.dmabufSet = false := by
            simpa using hdb
          simp [h1, hdb2]
        next => exact ⟨h1, h2, by intro hcon _ _; simp at hcon⟩
      next =>
        split
        next => exact goodState_writeStep dir camId s f h1 h2 hix
        next => exact ⟨h1, h2, by intro hcon _ _; simp at hcon⟩
  next => exact ⟨h1, h2, h3⟩

lemma goodState_step (dir : String) (camId se : Nat) (s : CState) (ev : LoopStep)
    (h : goodState dir camId s) : goodState dir camId (loopStep dir camId se s ev) := by
  obtain ⟨h1, h2, h3⟩ := h
  obtain ⟨stop, acq⟩ := ev
  cases he : s.errorOccurred with
  | true =>
    rw [loopStep_frozen dir camId se s _ (Or.inl he)]
    exact ⟨h1, h2, h3⟩
  | false =>
  cases hd : s.doExecute with
  | false =>
    rw [loopStep_frozen dir camId se s _ (Or.inr (Or.inl hd))]
    exact ⟨h1, h2, h3⟩
  | true =>
  cases hb : s.broke with
  | true =>
    rw [loopStep_frozen dir camId se s _ (Or.inr (Or.inr hb))]
    exact ⟨h1, h2, h3⟩
  | false =>
  unfold loopStep
  rw [if_neg (by simp [he, hd, hb])]
  cases stop with
  | true =>
    rw [if_pos (by simp)]
    exact ⟨h1, h2, by intro _ hcon _; simp at hcon⟩
  | false =>
    rw [if_neg (by simp)]
    cases acq with
    | eos =>
      exact ⟨h1, h2, by intro _ _ hcon; simp at hcon⟩
    | frame f =>
      exact goodState_frameStep dir camId se s f ⟨h1, h2, h3⟩ he hd hb

lemma goodState_execLoop (dir : String) (camId se : Nat) :
    ∀ (evs : List LoopStep) (s : CState), goodState dir camId s →
      goodState dir camId (execLoop dir camId se s evs) := by
  intro evs
  induction evs with
  | nil => intro s h; exact h
  | cons e es ih =>
    intro s h
    have : execLoop dir camId se s (e :: es) =
        execLoop dir camId se (loopStep dir camId se s e) es := rfl
    rw [this]
    exact ih _ (goodState_step dir camId se s e h)

/-! ## Healthy-run computation for the stride claim -/

lemma healthyEvents_succ (n : Nat) :
    healthyEvents (n + 1) = healthyEvents n ++ [okFrame (n + 1)] := by
  unfold healthyEvents
  rw [List.range_succ, List.map_append]
  rfl

lemma execLoop_healthy (dir : String) (camId S : Nat) (hS : 1 ≤ S) :
    ∀ n : Nat, execLoop dir camId S (initCState true) (healthyEvents n) =
      { dmabufSet := decide (1 ≤ n / S), allocCount := min (n / S) 1,
        index := n / S + 1, doExecute := true, errorOccurred := false,
        wroteFirst := decide (1 ≤ n / S), broke := false,
        written := (List.range (n / S)).map (fun k => mkFilename dir camId (k + 1)) } := by
  intro n
  induction n with
  | zero =>
    simp [healthyEvents, execLoop, initCState, Nat.zero_div]
  | succ n ih =>
    rw [healthyEvents_succ]
    unfold execLoop at ih ⊢
    rw [List.foldl_append, ih]
    simp only [List.foldl_cons, List.foldl_nil]
    by_cases hmod : (n + 1) % S = 0
    · have hdvd : S ∣ (n + 1) := Nat.dvd_of_mod_eq_zero hmod
      have hq : (n + 1) / S = n / S + 1 := by
        rw [Nat.succ_div]
        simp [hdvd]
      by_cases h0 : n / S = 0
      · simp [loopStep, frameStep, writeStep, processV4L2Fd, okFrame,
          hmod, hq, h0, List.range_succ]
      · have h1 : 1 ≤ n / S := Nat.pos_of_ne_zero h0
        have h1s : 1 ≤ n / S + 1 := Nat.le_succ_of_le h1
        simp [loopStep, frameStep, writeStep, processV4L2Fd, okFrame,
          hmod, hq, h1, h1s, Nat.min_eq_right, List.range_succ,
          Nat.one_le_iff_ne_zero.mp h1]
    · have hndvd : ¬ S ∣ (n + 1) := by
        intro hdvd
        exact hmod (Nat.mod_eq_zero_of_dvd hdvd)
      have hq : (n + 1) / S = n / S := by
        rw [Nat.succ_div]
        simp [hndvd]
      simp [loopStep, frameStep, okFrame, hmod, hq]

/-- C1: for stride S and a healthy stream delivering raw sequence
numbers 1..N followed by end-of-stream, the worker writes exactly
N / S files, and they are exactly the consecutively numbered
zero-padded names image000001.jpg, image000002.jpg, ... in order. -/
theorem stride_healthy_run_writes (dir : String) (camId S N : Nat) (hS : 1 ≤ S) :
    (threadExecute dir camId S true (healthyEvents N ++ [eosEvt])).1.written =
      (List.range (N / S)).map (fun k => mkFilename dir camId (k + 1)) ∧
    (threadExecute dir camId S true (healthyEvents N ++ [eosEvt])).1.written.length
      = N / S := by
  have hh := execLoop_healthy dir camId S hS N
  have hw : (threadExecute dir camId S true (healthyEvents N ++ [eosEvt])).1.written =
      (List.range (N / S)).map (fun k => mkFilename dir camId (k + 1)) := by
    show (execLoop dir camId S (initCState true) (healthyEvents N ++ [eosEvt])).written = _
    unfold execLoop
    rw [List.foldl_append]
    unfold execLoop at hh
    rw [hh]
    simp [loopStep, eosEvt]
  refine ⟨hw, ?_⟩
  rw [hw]
  simp

theorem stride_healthy_run_writes_witness :
    1 ≤ 2 ∧
    ((threadExecute "r" 0 2 true (healthyEvents 5 ++ [eosEvt])).1.written =
      (List.range (5 / 2)).map (fun k => mkFilename "r" 0 (k + 1)) ∧
    (threadExecute "r" 0 2 true (healthyEvents 5 ++ [eosEvt])).1.written.length
      = 5 / 2) :=
  ⟨by decide, stride_healthy_run_writes "r" 0 2 5 (by decide)⟩

/-- C4: over any run of the consumer loop, the hardware buffer is
allocated at most once, and it has been allocated exactly once
precisely when the handle is set; later processed frames reuse the
handle in place (the copy path of frameStep), so it is never
reallocated. -/
theorem nvbuffer_single_allocation (dir : String) (camId se : Nat) (c : Bool)
    (evs : List LoopStep) :
    (threadExecute dir camId se c evs).1.allocCount ≤ 1 ∧
    ((threadExecute dir camId se c evs).1.dmabufSet = true ↔
      (threadExecute dir camId se c evs).1.allocCount = 1) := by
  obtain ⟨h1, -, -⟩ :=
    goodState_execLoop dir camId se evs _ (goodState_init dir camId c)
  constructor
  · show (execLoop dir camId se (initCState c) evs).allocCount ≤ 1
    rw [h1]
    split <;> simp
  · show (execLoop dir camId se (initCState c) evs).dmabufSet = true ↔
      (execLoop dir camId se (initCState c) evs).allocCount = 1
    rw [h1]
    cases hdb : (execLoop dir camId se (initCState c) evs).dmabufSet <;> simp [hdb]

/-- C7 (amended): every file the worker writes has the destination path
built by mkFilename from the worker's save index, the index starts at 1
and advances on every encode attempt, and because a failed attempt
stops the loop, the files actually written carry exactly the
consecutive indices 1..k. -/
theorem written_files_consecutive (dir : String) (camId se : Nat) (c : Bool)
    (evs : List LoopStep) :
    (threadExecute dir camId se c evs).1.written =
      (List.range (threadExecute dir camId se c evs).1.written.length).map
        (fun k => mkFilename dir camId (k + 1)) := by
  obtain ⟨-, h2, -⟩ :=
    goodState_execLoop dir camId se evs _ (goodState_init dir camId c)
  exact h2

/-- The single-frame input whose JPEG write fails. -/
def failWriteEvt : LoopStep :=
  { stopBefore := false,
    acquire := Acquire.frame
      { number := 1, nativeBufOk := true, bufOpOk := true,
        encodeOk := true, writeOk := false } }

/-- C7 counterexample: on a run whose only processed frame fails its
write, the save index has still advanced from 1 to 2 even though no
file was successfully written — the code passes the post-increment
expression to processV4L2Fd, so a failed encode or write does advance
the index. -/
theorem failed_write_advances_index :
    (threadExecute "r" 0 1 true [failWriteEvt]).1.index = 2 ∧
    (threadExecute "r" 0 1 true [failWriteEvt]).1.written = [] ∧
    ¬ (threadExecute "r" 0 1 true [failWriteEvt]).1.index = 1 := by
  refine ⟨rfl, rfl, by decide⟩

/-- C10: whatever made threadExecute return — a stop request, the
end-of-stream sentinel, a buffer error or a write failure — the
executing flag is false afterwards, because the flag is cleared
unconditionally after the loop, so isExecuting reports false on every
exit path. -/
theorem executing_false_on_every_exit (dir : String) (camId se : Nat) (c : Bool)
    (evs : List LoopStep) :
    isExecuting (threadExecute dir camId se c evs).1 = false := rfl

/-! ## Option-parsing invariant -/

/-- Whenever the valid flag is still set, the stride is at least 1 and
the capture time is non-negative. -/
def optInv (s : OptState) : Prop :=
  s.valid = true → 1 ≤ s.saveEvery ∧ 0 ≤ s.captureTime

lemma optStep_inv (s : OptState) (t : OptTok) (h : optInv s) :
    optInv (optStep s t) := by
  cases t with
  | longProfile => exact fun hv => h hv
  | longHelp =>
    dsimp only [optStep]
    intro hv
    simp at hv
  | rootDir d =>
    dsimp only [optStep]
    split
    · intro hv; simp at hv
    · exact fun hv => h hv
  | modeArg v =>
    dsimp only [optStep]
    split
    · intro hv; simp at hv
    · split
      · intro hv; simp at hv
      · exact fun hv => h hv
  | captTimeArg v =>
    dsimp only [optStep]
    split
    · intro hv; simp at hv
    · next hnot =>
      intro hv
      refine ⟨(h hv).1, ?_⟩
      show (0 : Int) ≤ v
      omega
  | saveEveryArg v =>
    dsimp only [optStep]
    split
    · intro hv; simp at hv
    · next hnot =>
      intro hv
      refine ⟨?_, (h hv).2⟩
      show (1 : Int) ≤ v
      omega
  | profFlag => exact fun hv => h hv
  | helpFlag =>
    dsimp only [optStep]
    intro hv
    simp at hv
  | otherTok => exact h

lemma parseLoop_inv : ∀ (ts : List OptTok) (s : OptState), optInv s →
    optInv (parseLoop s ts) := by
  intro ts
  induction ts with
  | nil => intro s h; exact h
  | cons t ts ih =>
    intro s h
    unfold parseLoop
    split
    · exact ih _ (optStep_inv s t h)
    · exact h

/-- C9: whenever Options::parse returns true, the parsed configuration
has saveEvery at least 1 and captureTime at least 0; in particular
saveEvery is nonzero, so the worker's sampling test, a modulo by
saveEvery, is never a modulo by zero. -/
theorem parse_true_stride_positive (iv : Bool) (td : String) (toks : List OptTok)
    (h : (optionsParse iv td toks).1 = true) :
    1 ≤ (optionsParse iv td toks).2.saveEvery ∧
    0 ≤ (optionsParse iv td toks).2.captureTime ∧
    (optionsParse iv td toks).2.saveEvery ≠ 0 := by
  have hinv : optInv (parseLoop (initOptState iv td) toks) := by
    apply parseLoop_inv
    intro _
    constructor <;> simp [initOptState]
  have hv : (parseLoop (initOptState iv td) toks).valid = true := h
  obtain ⟨hs, ht⟩ := hinv hv
  refine ⟨hs, ht, ?_⟩
  show (parseLoop (initOptState iv td) toks).saveEvery ≠ 0
  omega

theorem parse_true_stride_positive_witness :
    (optionsParse true "0" [OptTok.saveEveryArg 3, OptTok.captTimeArg 7]).1 = true ∧
    (1 ≤ (optionsParse true "0" [OptTok.saveEveryArg 3, OptTok.captTimeArg 7]).2.saveEvery ∧
     0 ≤ (optionsParse true "0" [OptTok.saveEveryArg 3, OptTok.captTimeArg 7]).2.captureTime ∧
     (optionsParse true "0" [OptTok.saveEveryArg 3, OptTok.captTimeArg 7]).2.saveEvery ≠ 0) :=
  ⟨by decide,
   parse_true_stride_positive true "0" [OptTok.saveEveryArg 3, OptTok.captTimeArg 7]
     (by decide)⟩

/-! ## Sensor-mode resolution -/

/-- C2 counterexample: with one sensor mode (M = 1) and requested index
1 — out of range, since the only valid index is 0 — the bounds check of
App.cpp line 171 (strict greater-than against the size) passes, so the
mode is not reset to the default and the mode vector is subscripted at
position 1, which is not within the bounds of a one-element vector. -/
theorem sensor_mode_eq_count_escapes_check :
    (resolveSensorMode 1 1 true true).2.1 = 1 ∧
    (resolveSensorMode 1 1 true true).2.2 = some 1 ∧
    ¬ (1 < 1) := by
  refine ⟨rfl, rfl, by decide⟩

/-- C2 (amended): a requested index strictly greater than the mode
count is non-fatal: the run continues with the mode reset to the
default 0, and the resolve step performs no subscript of the mode
vector at all; an out-of-range index equal to the count instead passes
the bounds check and is used as an out-of-bounds subscript. -/
theorem sensor_mode_above_count_falls_back (i M : Nat) (hM : 0 < M) (hi : M < i) :
    resolveSensorMode i M true true = (false, 0, none) := by
  unfold resolveSensorMode
  rw [if_neg (by simp)]
  rw [if_neg (by omega)]
  rw [if_pos hi]

theorem sensor_mode_above_count_falls_back_witness :
    0 < 1 ∧ 1 < 3 ∧ resolveSensorMode 3 1 true true = (false, 0, none) :=
  ⟨by decide, by decide,
   sensor_mode_above_count_falls_back 3 1 (by decide) (by decide)⟩

/-! ## Wait-loop and cancellation lemmas -/

lemma waitLoop_of_false (n ct : Nat) : ∀ (el : Nat) (ts : List TickObs),
    waitLoop n ct el false ts = false := by
  intro el ts
  cases ts with
  | nil => rfl
  | cons t ts =>
    unfold waitLoop
    simp [signalUpdate]

lemma waitLoop_dead (n : Nat) :
    ∀ (ts : List TickObs) (el : Nat), (∃ t ∈ ts, tickAlive n t = false) →
      waitLoop n 0 el true ts = false := by
  intro ts
  induction ts with
  | nil =>
    intro el h
    obtain ⟨t, ht, -⟩ := h
    simp at ht
  | cons t ts ih =>
    intro el h
    unfold waitLoop
    by_cases hs : t.signal = true
    · simp [signalUpdate, hs]
    · have hs2 : t.signal = false := by
        cases hfl : t.signal
        · rfl
        · exact absurd hfl hs
      obtain ⟨u, hu, hdead⟩ := h
      rcases List.mem_cons.mp hu with rfl | hmem
      · simp [signalUpdate, hs2, pollUpdate, hdead, waitLoop_of_false]
      · by_cases ha : tickAlive n t = true
        · simp only [signalUpdate, hs2, pollUpdate, ha]
          simp only [Bool.and_true, Bool.not_false, Bool.and_self]
          rw [if_pos (by simp)]
          exact ih (el + 1) ⟨u, hmem, hdead⟩
        · have ha2 : tickAlive n t = false := by
            cases hfl : tickAlive n t
            · rfl
            · exact absurd hfl ha
          simp [signalUpdate, hs2, pollUpdate, ha2, waitLoop_of_false]

/-- C5: the cancellation flag is monotone: the signal handler writes
only the cancelled value, the wait loop's signal fold and liveness poll
can only lower the flag, and once the flag is false the wait loop
reports false no matter how many further ticks it observes. -/
theorem cancellation_monotone :
    (∀ (s : Int) (d : Bool), signalCallback s d ≤ d) ∧
    (∀ (t : TickObs) (d : Bool), signalUpdate t d ≤ d) ∧
    (∀ (n : Nat) (t : TickObs) (d : Bool), pollUpdate n t d ≤ d) ∧
    (∀ (n ct el : Nat) (ts : List TickObs), waitLoop n ct el false ts = false) := by
  refine ⟨?_, ?_, ?_, ?_⟩
  · intro s d
    cases d <;> simp [signalCallback]
  · intro t d
    cases d <;> cases hs : t.signal <;> simp [signalUpdate, hs]
  · intro n t d
    cases d <;> cases ha : tickAlive n t <;> simp [pollUpdate, ha]
  · intro n ct el ts
    exact waitLoop_of_false n ct el ts

/-! ## Per-phase loop lemmas -/

lemma runPhase_ok (f : Nat → Bool × List Action) :
    ∀ n : Nat, (∀ i, i < n → (f i).1 = true) →
      (runPhase f n).1 = n ∧ (runPhase f n).2.1 = false := by
  intro n
  induction n with
  | zero => intro _; exact ⟨rfl, rfl⟩
  | succ n ih =>
    intro h
    obtain ⟨hc, he⟩ := ih (fun i hi => h i (Nat.lt_succ_of_lt hi))
    unfold runPhase
    rw [if_neg (by simp [he])]
    refine ⟨?_, ?_⟩ <;> simp [h n (Nat.lt_succ_self n), hc]

lemma runPhase_mem (f : Nat → Bool × List Action) :
    ∀ (n : Nat) (a : Action), a ∈ (runPhase f n).2.2 →
      ∃ i, i < n ∧ a ∈ (f i).2 := by
  intro n
  induction n with
  | zero => intro a ha; simp [runPhase] at ha
  | succ n ih =>
    intro a ha
    unfold runPhase at ha
    by_cases he : (runPhase f n).2.1 = true
    · rw [if_pos he] at ha
      obtain ⟨i, hi, hm⟩ := ih a ha
      exact ⟨i, Nat.lt_succ_of_lt hi, hm⟩
    · rw [if_neg he] at ha
      dsimp only at ha
      rcases List.mem_append.mp ha with hm | hm
      · obtain ⟨i, hi, hmm⟩ := ih a hm
        exact ⟨i, Nat.lt_succ_of_lt hi, hmm⟩
      · exact ⟨n, Nat.lt_succ_self n, hm⟩

lemma workersLoop_ok (e : Env) :
    ∀ n : Nat, (∀ i, i < n → (threadInit e i).1 = true) →
      (workersLoop e n).1 = n ∧ (workersLoop e n).2.1 = n ∧
      (workersLoop e n).2.2.1 = false := by
  intro n
  induction n with
  | zero => intro _; exact ⟨rfl, rfl, rfl⟩
  | succ n ih =>
    intro h
    obtain ⟨-, -, h3⟩ := ih (fun i hi => h i (Nat.lt_succ_of_lt hi))
    unfold workersLoop
    rw [if_neg (by simp [h3])]
    refine ⟨rfl, ?_, ?_⟩ <;> simp [h n (Nat.lt_succ_self n)]

lemma threadInit_mem (e : Env) (i : Nat) (a : Action)
    (h : a ∈ (threadInit e i).2) : a = Action.createCamDir i := by
  unfold threadInit at h
  split at h
  · simp at h
  · split at h
    · simp at h
    · simpa using h

lemma workersLoop_mem (e : Env) :
    ∀ (n : Nat) (a : Action), a ∈ (workersLoop e n).2.2.2 →
      ∃ i, a = Action.createCamDir i := by
  intro n
  induction n with
  | zero => intro a ha; simp [workersLoop] at ha
  | succ n ih =>
    intro a ha
    unfold workersLoop at ha
    by_cases he : (workersLoop e n).2.2.1 = true
    · rw [if_pos he] at ha
      exact ih a ha
    · rw [if_neg he] at ha
      dsimp only at ha
      rcases List.mem_append.mp ha with hm | hm
      · exact ih a hm
      · exact ⟨n, threadInit_mem e n a hm⟩

/-! ## Shapes of each trace segment -/

lemma rootActs_shape (e : Env) (a : Action) (h : a ∈ rootActs e) :
    a = Action.mkdirRoot := by
  unfold rootActs at h
  split at h
  · simpa using h
  · simp at h

lemma workerActs_shape (e : Env) (a : Action) (h : a ∈ (workerPhase e).2.2.2) :
    ∃ i, a = Action.createCamDir i := by
  unfold workerPhase at h
  split at h
  · simp at h
  · exact workersLoop_mem e _ a h

lemma waitActs_shape (e : Env) (a : Action) (h : a ∈ (waitPhase e).2.2) :
    ∃ i, a = Action.waitRunning i := by
  unfold waitPhase at h
  split at h
  · simp at h
  · obtain ⟨i, -, hm⟩ := runPhase_mem _ _ a h
    exact ⟨i, by simpa using hm⟩

lemma subActs_shape (e : Env) (a : Action) (h : a ∈ (subPhase e).2.2) :
    ∃ i, a = Action.submitRepeat i := by
  unfold subPhase at h
  split at h
  · simp at h
  · obtain ⟨i, -, hm⟩ := runPhase_mem _ _ a h
    exact ⟨i, by simpa using hm⟩

lemma stopActs_shape (e : Env) (a : Action) (h : a ∈ stopActs e) :
    a = Action.stopExecuteAll := by
  unfold stopActs at h
  split at h
  · simp at h
  · simpa using h

/-! ## Ordering machinery -/

lemma before_of_split (p q : Action → Bool) (l1 l2 : List Action)
    (h1 : ∀ a ∈ l1, q a = false) (h2 : ∀ a ∈ l2, p a = false) :
    before p q (l1 ++ l2) := by
  intro i j hi hj hp hq
  have hil : i < l1.length := by
    by_contra hc
    push_neg at hc
    have hlen : i - l1.length < l2.length := by
      have hi2 := hi
      simp [List.length_append] at hi2
      omega
    have heq : (l1 ++ l2).get ⟨i, hi⟩ = l2.get ⟨i - l1.length, hlen⟩ := by
      rw [List.get_append_right] <;> omega
    rw [heq, h2 _ (List.get_mem _ _ _)] at hp
    simp at hp
  have hjl : l1.length ≤ j := by
    by_contra hc
    push_neg at hc
    have heq : (l1 ++ l2).get ⟨j, hj⟩ = l1.get ⟨j, hc⟩ := List.get_append j hc
    rw [heq, h1 _ (List.get_mem _ _ _)] at hq
    simp at hq
  omega

/-- C6: in every run the submit-repeat calls come only after every
wait-for-running call, the stream destructions come only after every
stop-repeat and every wait-for-idle call, and the worker shutdowns come
only after every stream destruction. -/
theorem run_teardown_ordering (e : Env) :
    before isWaitRunningA isSubmitRepeatA (appRun e).actions ∧
    before isStopRepeatA isDestroyStreamA (appRun e).actions ∧
    before isWaitIdleA isDestroyStreamA (appRun e).actions ∧
    before isDestroyStreamA isWorkerShutdownA (appRun e).actions := by
  have hact : (appRun e).actions = appTrace e := rfl
  have hnoDq : ∀ a, a ∈ rootActs e ∨ a ∈ (workerPhase e).2.2.2 ∨
      a ∈ (waitPhase e).2.2 ∨ a ∈ (subPhase e).2.2 ∨ a ∈ stopActs e ∨
      a ∈ (List.range (numReq e)).map Action.stopRepeat ∨
      a ∈ (List.range (numReq e)).map Action.waitIdle →
      isDestroyStreamA a = false ∧ isWorkerShutdownA a = false := by
    intro a h
    rcases h with h | h | h | h | h | h | h
    · rw [rootActs_shape e a h]; exact ⟨rfl, rfl⟩
    · obtain ⟨i, rfl⟩ := workerActs_shape e a h; exact ⟨rfl, rfl⟩
    · obtain ⟨i, rfl⟩ := waitActs_shape e a h; exact ⟨rfl, rfl⟩
    · obtain ⟨i, rfl⟩ := subActs_shape e a h; exact ⟨rfl, rfl⟩
    · rw [stopActs_shape e a h]; exact ⟨rfl, rfl⟩
    · obtain ⟨i, -, rfl⟩ := List.mem_map.mp h; exact ⟨rfl, rfl⟩
    · obtain ⟨i, -, rfl⟩ := List.mem_map.mp h; exact ⟨rfl, rfl⟩
  refine ⟨?_, ?_, ?_, ?_⟩
  · rw [hact]
    have hsplit : appTrace e =
        (rootActs e ++ ((workerPhase e).2.2.2 ++ (waitPhase e).2.2)) ++
        ((subPhase e).2.2 ++ (stopActs e ++ teardownActs e)) := by
      simp [appTrace, List.append_assoc]
    rw [hsplit]
    apply before_of_split
    · intro a ha
      rcases List.mem_append.mp ha with h | h
      · rw [rootActs_shape e a h]; rfl
      · rcases List.mem_append.mp h with h | h
        · obtain ⟨i, rfl⟩ := workerActs_shape e a h; rfl
        · obtain ⟨i, rfl⟩ := waitActs_shape e a h; rfl
    · intro a ha
      rcases List.mem_append.mp ha with h | h
      · obtain ⟨i, rfl⟩ := subActs_shape e a h; rfl
      · rcases List.mem_append.mp h with h | h
        · rw [stopActs_shape e a h]; rfl
        · unfold teardownActs at h
          rcases List.mem_append.mp h with h | h
          · rcases List.mem_append.mp h with h | h
            · rcases List.mem_append.mp h with h | h
              · obtain ⟨i, -, rfl⟩ := List.mem_map.mp h; rfl
              · obtain ⟨i, -, rfl⟩ := List.mem_map.mp h; rfl
            · obtain ⟨i, -, rfl⟩ := List.mem_map.mp h; rfl
          · obtain ⟨i, -, rfl⟩ := List.mem_map.mp h; rfl
  · rw [hact]
    have hsplit : appTrace e =
        (rootActs e ++ ((workerPhase e).2.2.2 ++ ((waitPhase e).2.2 ++
          ((subPhase e).2.2 ++ (stopActs e ++
            ((List.range (numReq e)).map Action.stopRepeat ++
             (List.range (numReq e)).map Action.waitIdle)))))) ++
        ((List.range (numStreams e)).map Action.destroyStream ++
         (List.range (numInit e)).map Action.workerShutdown) := by
      simp [appTrace, teardownActs, List.append_assoc]
    rw [hsplit]
    apply before_of_split
    · intro a ha
      rcases List.mem_append.mp ha with h | h
      · exact (hnoDq a (Or.inl h)).1
      · rcases List.mem_append.mp h with h | h
        · exact (hnoDq a (Or.inr (Or.inl h))).1
        · rcases List.mem_append.mp h with h | h
          · exact (hnoDq a (Or.inr (Or.inr (Or.inl h)))).1
          · rcases List.mem_append.mp h with h | h
            · exact (hnoDq a (Or.inr (Or.inr (Or.inr (Or.inl h))))).1
            · rcases List.mem_append.mp h with h | h
              · exact (hnoDq a (Or.inr (Or.inr (Or.inr (Or.inr (Or.inl h)))))).1
              · rcases List.mem_append.mp h with h | h
                · exact (hnoDq a (Or.inr (Or.inr (Or.inr (Or.inr (Or.inr (Or.inl h))))))).1
                · exact (hnoDq a (Or.inr (Or.inr (Or.inr (Or.inr (Or.inr (Or.inr h))))))).1
    · intro a ha
      rcases List.mem_append.mp ha with h | h
      · obtain ⟨i, -, rfl⟩ := List.mem_map.mp h; rfl
      · obtain ⟨i, -, rfl⟩ := List.mem_map.mp h; rfl
  · rw [hact]
    have hsplit : appTrace e =
        (rootActs e ++ ((workerPhase e).2.2.2 ++ ((waitPhase e).2.2 ++
          ((subPhase e).2.2 ++ (stopActs e ++
            ((List.range (numReq e)).map Action.stopRepeat ++
             (List.range (numReq e)).map Action.waitIdle)))))) ++
        ((List.range (numStreams e)).map Action.destroyStream ++
         (List.range (numInit e)).map Action.workerShutdown) := by
      simp [appTrace, teardownActs, List.append_assoc]
    rw [hsplit]
    apply before_of_split
    · intro a ha
      rcases List.mem_append.mp ha with h | h
      · exact (hnoDq a (Or.inl h)).1
      · rcases List.mem_append.mp h with h | h
        · exact (hnoDq a (Or.inr (Or.inl h))).1
        · rcases List.mem_append.mp h with h | h
          · exact (hnoDq a (Or.inr (Or.inr (Or.inl h)))).1
          · rcases List.mem_append.mp h with h | h
            · exact (hnoDq a (Or.inr (Or.inr (Or.inr (Or.inl h))))).1
            · rcases List.mem_append.mp h with h | h
              · exact (hnoDq a (Or.inr (Or.inr (Or.inr (Or.inr (Or.inl h)))))).1
              · rcases List.mem_append.mp h with h | h
                · exact (hnoDq a (Or.inr (Or.inr (Or.inr (Or.inr (Or.inr (Or.inl h))))))).1
                · exact (hnoDq a (Or.inr (Or.inr (Or.inr (Or.inr (Or.inr (Or.inr h))))))).1
    · intro a ha
      rcases List.mem_append.mp ha with h | h
      · obtain ⟨i, -, rfl⟩ := List.mem_map.mp h; rfl
      · obtain ⟨i, -, rfl⟩ := List.mem_map.mp h; rfl
  · rw [hact]
    have hsplit : appTrace e =
        (rootActs e ++ ((workerPhase e).2.2.2 ++ ((waitPhase e).2.2 ++
          ((subPhase e).2.2 ++ (stopActs e ++
            ((List.range (numReq e)).map Action.stopRepeat ++
             ((List.range (numReq e)).map Action.waitIdle ++
              (List.range (numStreams e)).map Action.destroyStream))))))) ++
        (List.range (numInit e)).map Action.workerShutdown := by
      simp [appTrace, teardownActs, List.append_assoc]
    rw [hsplit]
    apply before_of_split
    · intro a ha
      rcases List.mem_append.mp ha with h | h
      · exact (hnoDq a (Or.inl h)).2
      · rcases List.mem_append.mp h with h | h
        · exact (hnoDq a (Or.inr (Or.inl h))).2
        · rcases List.mem_append.mp h with h | h
          · exact (hnoDq a (Or.inr (Or.inr (Or.inl h)))).2
          · rcases List.mem_append.mp h with h | h
            · exact (hnoDq a (Or.inr (Or.inr (Or.inr (Or.inl h))))).2
            · rcases List.mem_append.mp h with h | h
              · exact (hnoDq a (Or.inr (Or.inr (Or.inr (Or.inr (Or.inl h)))))).2
              · rcases List.mem_append.mp h with h | h
                · exact (hnoDq a (Or.inr (Or.inr (Or.inr (Or.inr (Or.inr (Or.inl h))))))).2
                · rcases List.mem_append.mp h with h | h
                  · exact (hnoDq a (Or.inr (Or.inr (Or.inr (Or.inr (Or.inr (Or.inr h))))))).2
                  · obtain ⟨i, -, rfl⟩ := List.mem_map.mp h; rfl
    · intro a ha
      obtain ⟨i, -, rfl⟩ := List.mem_map.mp ha; rfl

/-! ## Error-chain lemmas for failed enumeration -/

lemma errSub_of_errEnum (e : Env) (h : errEnum e = true) : errSub e = true := by
  unfold errSub errReq errWait errWorker errStream errMode errSess
  simp [h]

lemma errStream_of_errEnum (e : Env) (h : errEnum e = true) : errStream e = true := by
  unfold errStream errMode errSess
  simp [h]

lemma errMode_of_errEnum (e : Env) (h : errEnum e = true) : errMode e = true := by
  unfold errMode errSess
  simp [h]

lemma errWorker_of_errEnum (e : Env) (h : errEnum e = true) : errWorker e = true := by
  unfold errWorker
  simp [errStream_of_errEnum e h]

lemma errWait_of_errEnum (e : Env) (h : errEnum e = true) : errWait e = true := by
  unfold errWait
  simp [errWorker_of_errEnum e h]

lemma errReq_of_errEnum (e : Env) (h : errEnum e = true) : errReq e = true := by
  unfold errReq
  simp [errWait_of_errEnum e h]

/-- C8: when device enumeration yields zero cameras, the whole run
reports failure and no per-camera subdirectory creation ever happens —
the only directory action that can be in the trace is the root mkdir,
which precedes enumeration. -/
theorem zero_cameras_fails_before_camdirs (e : Env) (h : e.deviceCount = 0) :
    (appRun e).success = false ∧
    ∀ a ∈ (appRun e).actions, isCreateCamDirA a = false := by
  have hE : errEnum e = true := by
    unfold errEnum
    simp [h]
  have hMode := errMode_of_errEnum e hE
  have hStream := errStream_of_errEnum e hE
  have hWorker := errWorker_of_errEnum e hE
  have hWait := errWait_of_errEnum e hE
  have hReq := errReq_of_errEnum e hE
  have hSub := errSub_of_errEnum e hE
  constructor
  · show (!errSub e) = false
    rw [hSub]
    rfl
  · intro a ha
    have hact : (appRun e).actions = appTrace e := rfl
    rw [hact] at ha
    unfold appTrace at ha
    have hwa : (workerPhase e).2.2.2 = [] := by
      unfold workerPhase
      rw [if_pos hStream]
    have hwt : (waitPhase e).2.2 = [] := by
      unfold waitPhase
      rw [if_pos hWorker]
    have hsb : (subPhase e).2.2 = [] := by
      unfold subPhase
      rw [if_pos hReq]
    have hst : stopActs e = [] := by
      unfold stopActs
      rw [if_pos hSub]
    have hnr : numReq e = 0 := by
      unfold numReq subPhase
      rw [if_pos hReq]
    have hns : numStreams e = 0 := by
      unfold numStreams streamPhase
      rw [if_pos hMode]
    have hni : numInit e = 0 := by
      unfold numInit workerPhase
      rw [if_pos hStream]
    rw [hwa, hwt, hsb, hst] at ha
    unfold teardownActs at ha
    rw [hnr, hns, hni] at ha
    simp only [List.range_zero, List.map_nil, List.append_nil, List.nil_append] at ha
    rw [rootActs_shape e a ha]
    rfl

/-! ## Clean-startup facts -/

lemma startup_counts (e : Env) (h : StartupOk e) :
    errSub e = false ∧ numCams e = e.deviceCount ∧
    numInit e = e.deviceCount ∧ numReq e = e.deviceCount := by
  obtain ⟨h1, h2, h3, h4, h5, h6, h7, h8, h9, h10, h11, h12, h13, h14,
    h15, h16, h17, h18, h19, h20, h21, h22, h23, h24, h25⟩ := h
  have hcams : numCams e = e.deviceCount := Nat.mod_eq_of_lt h8
  have hpre : errPre e = false := by
    unfold errPre
    simp [h1, h2, h3, h4]
  have hroot : errRoot e = false := by
    unfold errRoot
    simp [hpre, h5]
  have hprov : errProv e = false := by
    unfold errProv
    simp [hroot, h6]
  have hne : (e.deviceCount == 0) = false := by
    rw [beq_eq_false_iff_ne]
    omega
  have henum : errEnum e = false := by
    unfold errEnum
    rw [hprov, hne]
    rfl
  have hsessP : sessPhase e = runPhase (fun i => (sessionOk e i, [])) (numCams e) := by
    unfold sessPhase
    rw [if_neg (by simp [henum])]
  obtain ⟨-, hsE⟩ := runPhase_ok (fun i => (sessionOk e i, [])) (numCams e)
    (fun i _ => by simp [sessionOk, h9 i, h10 i])
  have hsess : errSess e = false := by
    unfold errSess
    rw [henum, hsessP, hsE]
    rfl
  have hmodeV : (modeRes e).1 = false := by
    unfold modeRes resolveSensorMode
    rw [h11, h13, h14]
    have hM : ¬ e.sensorModeCount = 0 := by omega
    simp [hM]
  have hmode : errMode e = false := by
    unfold errMode
    rw [hsess, hmodeV]
    rfl
  have hstrP : streamPhase e =
      runPhase (fun i => (e.streamSettingsOk i && e.streamOk i, [])) (numCams e) := by
    unfold streamPhase
    rw [if_neg (by simp [hmode])]
  obtain ⟨-, hstE⟩ :=
    runPhase_ok (fun i => (e.streamSettingsOk i && e.streamOk i, [])) (numCams e)
      (fun i _ => by simp [h15 i, h16 i])
  have hstream : errStream e = false := by
    unfold errStream
    rw [hmode, hstrP, hstE]
    rfl
  have hti : ∀ i, i < numCams e → (threadInit e i).1 = true := by
    intro i _
    simp [threadInit, h17 i, h18 i, h19 i, h20 i, h21 i]
  have hwP : workerPhase e = workersLoop e (numCams e) := by
    unfold workerPhase
    rw [if_neg (by simp [hstream])]
  obtain ⟨-, hwI, hwE⟩ := workersLoop_ok e (numCams e) hti
  have hworker : errWorker e = false := by
    unfold errWorker
    rw [hstream, hwP, hwE]
    rfl
  have hwaP : waitPhase e =
      runPhase (fun i => (e.waitRunningOk i, [Action.waitRunning i])) (numCams e) := by
    unfold waitPhase
    rw [if_neg (by simp [hworker])]
  obtain ⟨-, hwaE⟩ :=
    runPhase_ok (fun i => (e.waitRunningOk i, [Action.waitRunning i])) (numCams e)
      (fun i _ => by simp [h22 i])
  have hwait : errWait e = false := by
    unfold errWait
    rw [hworker, hwaP, hwaE]
    rfl
  have hrqP : reqPhase e =
      runPhase (fun i => (e.requestOk i && e.sourceSettingsOk i, [])) (numCams e) := by
    unfold reqPhase
    rw [if_neg (by simp [hwait])]
  obtain ⟨-, hrqE⟩ :=
    runPhase_ok (fun i => (e.requestOk i && e.sourceSettingsOk i, [])) (numCams e)
      (fun i _ => by simp [h23 i, h24 i])
  have hreq : errReq e = false := by
    unfold errReq
    rw [hwait, hrqP, hrqE]
    rfl
  have hsbP : subPhase e =
      runPhase (fun i => (e.repeatOk i, [Action.submitRepeat i])) (numCams e) := by
    unfold subPhase
    rw [if_neg (by simp [hreq])]
  obtain ⟨hsbC, hsbE⟩ :=
    runPhase_ok (fun i => (e.repeatOk i, [Action.submitRepeat i])) (numCams e)
      (fun i _ => by simp [h25 i])
  have hsub : errSub e = false := by
    unfold errSub
    rw [hreq, hsbP, hsbE]
    rfl
  refine ⟨hsub, hcams, ?_, ?_⟩
  · unfold numInit
    rw [hwP, hwI, hcams]
  · unfold numReq
    rw [hsbP, hsbC, hcams]

/-- C3: a mid-run encode or write failure is a soft stop.  First
conjunct, the worker side: at any live loop state, a sampled frame
whose encode-and-write call fails leaves the loop with the executing
flag cleared and the error flag still unset (the returned status stays
success).  Second conjunct, the orchestrator side: in a run whose
startup fully succeeded, once any polled tick sees a worker whose
executing flag is false, the running flag ends false, stopExecute is
issued to every worker, every worker's shutdown is reached, and the run
still returns success. -/
theorem write_failure_soft_escalation :
    (∀ (dir : String) (camId se : Nat) (s : CState) (f : FrameEvt),
      s.errorOccurred = false → s.doExecute = true → s.broke = false →
      s.dmabufSet = true → f.number % se = 0 → f.nativeBufOk = true →
      f.bufOpOk = true → (f.encodeOk && f.writeOk) = false →
      loopStep dir camId se s { stopBefore := false, acquire := Acquire.frame f }
        = { s with index := s.index + 1, doExecute := false }) ∧
    (∀ e : Env, StartupOk e → e.captureTime = 0 →
      (∃ t ∈ e.ticks, tickAlive (numCams e) t = false) →
      (appRun e).success = true ∧ (appRun e).doRun = false ∧
      Action.stopExecuteAll ∈ (appRun e).actions ∧
      ∀ i, i < e.deviceCount → Action.workerShutdown i ∈ (appRun e).actions) := by
  constructor
  · intro dir camId se s f he hd hb hdb hmod hn hbo hw
    unfold loopStep
    rw [if_neg (by simp [he, hd, hb])]
    rw [if_neg (by simp)]
    show frameStep dir camId se s f = _
    unfold frameStep
    rw [if_pos (by simp [hmod])]
    rw [if_neg (by simp [hn])]
    rw [if_neg (by simp [hdb])]
    rw [if_pos hbo]
    unfold writeStep
    rw [if_neg (by simp [processV4L2Fd, hw])]
  · intro e hok hct hdead
    obtain ⟨hsub, hcams, hini, hreq⟩ := startup_counts e hok
    have hstop : Action.stopExecuteAll ∈ stopActs e := by
      unfold stopActs
      rw [if_neg (by simp [hsub])]
      simp
    refine ⟨?_, ?_, ?_, ?_⟩
    · show (!errSub e) = true
      rw [hsub]
      rfl
    · show finalDoRun e = false
      unfold finalDoRun
      rw [if_neg (by simp [hsub]), hct]
      exact waitLoop_dead (numCams e) e.ticks 0 hdead
    · show Action.stopExecuteAll ∈ appTrace e
      unfold appTrace
      simp only [List.mem_append]
      exact Or.inl (Or.inr hstop)
    · intro i hi
      show Action.workerShutdown i ∈ appTrace e
      have hmem : Action.workerShutdown i ∈
          (List.range (numInit e)).map Action.workerShutdown := by
        apply List.mem_map.mpr
        refine ⟨i, List.mem_range.mpr ?_, rfl⟩
        rw [hini]
        exact hi
      unfold appTrace teardownActs
      simp only [List.mem_append]
      exact Or.inr (Or.inr hmem)

/-! ## Concrete environments for witnesses -/

/-- A tick on which every polled worker reports not executing. -/
def tickDead : TickObs :=
  { signal := false, alive := fun _ => false }

/-- An oracle in which every external call succeeds. -/
def envBase : Env :=
  { signalOk := true, loggerOk := true, optionsOk := true, parseOk := true,
    mkdirRootOk := true, providerOk := true, deviceCount := 2,
    sessionUnavailable := fun _ => false, sessionInterfaceOk := fun _ => true,
    camPropsOk := true, sensorModeCount := 1, sensorModeInterfaceOk := true,
    captureMode := 0, streamSettingsOk := fun _ => true,
    streamOk := fun _ => true, workerLoggerOk := fun _ => true,
    workerMkdirOk := fun _ => true, workerConsumerOk := fun _ => true,
    workerBufferOk := fun _ => true, workerEncoderOk := fun _ => true,
    waitRunningOk := fun _ => true, requestOk := fun _ => true,
    sourceSettingsOk := fun _ => true, repeatOk := fun _ => true,
    captureTime := 0, ticks := [] }

/-- The all-good oracle, except that enumeration finds no cameras. -/
def envNoCams : Env :=
  { envBase with deviceCount := 0 }

theorem zero_cameras_fails_before_camdirs_witness :
    envNoCams.deviceCount = 0 ∧
    ((appRun envNoCams).success = false ∧
     ∀ a ∈ (appRun envNoCams).actions, isCreateCamDirA a = false) :=
  ⟨rfl, zero_cameras_fails_before_camdirs envNoCams rfl⟩

/-- A one-camera clean-startup oracle whose single tick observes a dead
worker. -/
def envOneDead : Env :=
  { envBase with deviceCount := 1, ticks := [tickDead] }

lemma startupOk_envOneDead : StartupOk envOneDead := by
  refine ⟨rfl, rfl, rfl, rfl, rfl, rfl, by decide, by decide,
    fun _ => rfl, fun _ => rfl, rfl, by decide, rfl, rfl,
    fun _ => rfl, fun _ => rfl, fun _ => rfl, fun _ => rfl, fun _ => rfl,
    fun _ => rfl, fun _ => rfl, fun _ => rfl, fun _ => rfl, fun _ => rfl,
    fun _ => rfl⟩

/-- A live mid-run worker state holding the already-allocated buffer. -/
def sWit : CState :=
  { dmabufSet := true, allocCount := 1, index := 2, doExecute := true,
    errorOccurred := false, wroteFirst := true, broke := false,
    written := [mkFilename "r" 0 1] }

/-- A sampled frame whose JPEG write fails. -/
def fWit : FrameEvt :=
  { number := 2, nativeBufOk := true, bufOpOk := true,
    encodeOk := true, writeOk := false }

theorem write_failure_soft_escalation_witness :
    (loopStep "r" 0 1 sWit { stopBefore := false, acquire := Acquire.frame fWit }
      = { sWit with index := sWit.index + 1, doExecute := false }) ∧
    ((appRun envOneDead).success = true ∧ (appRun envOneDead).doRun = false ∧
     Action.stopExecuteAll ∈ (appRun envOneDead).actions ∧
     ∀ i, i < envOneDead.deviceCount →
       Action.workerShutdown i ∈ (appRun envOneDead).actions) :=
  ⟨write_failure_soft_escalation.1 "r" 0 1 sWit fWit rfl rfl rfl rfl
     (by decide) rfl rfl rfl,
   write_failure_soft_escalation.2 envOneDead startupOk_envOneDead rfl
     ⟨tickDead, List.mem_cons_self tickDead [], rfl⟩⟩

end StreamCapture
